import Mathlib

/-
Verification of the InsureWise backend core logic.

Shallow embedding of the wallet ledger (src/src/models/Wallet), the
transaction model (src/src/models/Transaction.ts), the claim workflow
(src/src/models/Claim.ts and src/src/controllers/claim.controller.ts),
the group-savings engine (src/src/models/GroupSavings.ts together with
the contribution controller), and the Paystack webhook handlers
(src/src/controllers/payment.controller.ts).

Modelling conventions:
- money amounts (JS numbers) are rationals;
- object ids are naturals; dates/timestamps are naturals supplied by the
  caller (the source reads the wall clock);
- mongoose documents become plain structures; an instance method that
  mutates its document and saves becomes a function returning the new
  value; a method that throws returns an Except;
- the randomly generated fallback transaction reference of credit/debit
  is passed in as an argument (its value never matters to the logic);
- civil-calendar arithmetic of updateContributionSchedule is abstracted
  into a nextDate argument (no verified property depends on dates).
-/

namespace InsureWise

abbrev Money := ℚ

/-! Transaction model (src/src/models/Transaction.ts) -/

inductive TxnStatus
  | pending
  | successful
  | failed
  | cancelled
deriving DecidableEq, Repr

inductive TxnType
  | credit
  | debit
deriving DecidableEq, Repr

structure Txn where
  userId : Nat
  reference : String
  ttype : TxnType
  amount : Money
  status : TxnStatus
deriving DecidableEq, Repr

/-- transactionSchema.methods.markAsSuccessful: only a pending transaction
may be marked successful; anything else throws. -/
def Txn.markAsSuccessful (t : Txn) : Except String Txn :=
  if t.status != TxnStatus.pending then
    .error "Cannot mark a non-pending transaction as successful"
  else
    .ok { t with status := TxnStatus.successful }

/-- transactionSchema.methods.markAsFailed: only a pending transaction may
be marked failed; anything else throws. -/
def Txn.markAsFailed (t : Txn) : Except String Txn :=
  if t.status != TxnStatus.pending then
    .error "Cannot mark a non-pending transaction as failed"
  else
    .ok { t with status := TxnStatus.failed }

/-- transactionSchema.methods.canBeUpdated -/
def Txn.canBeUpdated (t : Txn) : Bool :=
  t.status == TxnStatus.pending

/-! Wallet ledger (wallet schema in src/src/models, same file as Claim.ts) -/

structure Wallet where
  userId : Nat
  balance : Money
  transactions : List Txn
  isActive : Bool
deriving DecidableEq, Repr

/-- walletSchema.methods.credit: throws on amount <= 0, otherwise creates a
successful credit transaction and increments the balance. -/
def Wallet.credit (w : Wallet) (amount : Money) (reference : String) :
    Except String Wallet :=
  if amount ≤ 0 then
    .error "Credit amount must be positive"
  else
    .ok { w with
      balance := w.balance + amount,
      transactions := w.transactions ++
        [{ userId := w.userId, reference := reference, ttype := TxnType.credit,
           amount := amount, status := TxnStatus.successful }] }

/-- walletSchema.methods.debit: throws on amount <= 0; returns false
without mutating on insufficient funds; otherwise creates a successful
debit transaction, decrements the balance and returns true. -/
def Wallet.debit (w : Wallet) (amount : Money) (reference : String) :
    Except String (Wallet × Bool) :=
  if amount ≤ 0 then
    .error "Debit amount must be positive"
  else if w.balance < amount then
    .ok (w, false)
  else
    .ok ({ w with
      balance := w.balance - amount,
      transactions := w.transactions ++
        [{ userId := w.userId, reference := reference, ttype := TxnType.debit,
           amount := amount, status := TxnStatus.successful }] }, true)

/-- walletSchema.methods.canDebit -/
def Wallet.canDebit (w : Wallet) (amount : Money) : Bool :=
  w.isActive && decide (amount ≤ w.balance) && decide (0 < amount)

/-- walletSchema.pre save hook: a save of a wallet with negative balance is
rejected. -/
def Wallet.preSave (w : Wallet) : Except String Wallet :=
  if w.balance < 0 then
    .error "Wallet balance cannot be negative"
  else
    .ok w

/-- One credit or debit call against a wallet. -/
inductive WalletOp
  | credit (amount : Money) (reference : String)
  | debit (amount : Money) (reference : String)

/-- The wallet state after one operation: a thrown error or a false return
leaves the document unchanged. -/
def Wallet.applyOp (w : Wallet) : WalletOp → Wallet
  | WalletOp.credit a r =>
    match w.credit a r with
    | .ok w' => w'
    | .error _ => w
  | WalletOp.debit a r =>
    match w.debit a r with
    | .ok (w', _) => w'
    | .error _ => w

/-- The wallet state after a sequence of credit/debit calls. -/
def Wallet.runOps (w : Wallet) (ops : List WalletOp) : Wallet :=
  ops.foldl Wallet.applyOp w

theorem Wallet.applyOp_balance_nonneg (w : Wallet) (op : WalletOp)
    (h : 0 ≤ w.balance) : 0 ≤ (w.applyOp op).balance := by
  cases op with
  | credit a r =>
    by_cases ha : a ≤ 0
    · simp [Wallet.applyOp, Wallet.credit, ha, h]
    · push_neg at ha
      have : w.applyOp (WalletOp.credit a r) =
          { w with
            balance := w.balance + a,
            transactions := w.transactions ++
              [{ userId := w.userId, reference := r, ttype := TxnType.credit,
                 amount := a, status := TxnStatus.successful }] } := by
        simp [Wallet.applyOp, Wallet.credit, not_le.mpr ha]
      rw [this]
      show 0 ≤ w.balance + a
      linarith
  | debit a r =>
    by_cases ha : a ≤ 0
    · simp [Wallet.applyOp, Wallet.debit, ha, h]
    · push_neg at ha
      by_cases hb : w.balance < a
      · simp [Wallet.applyOp, Wallet.debit, if_neg (not_le.mpr ha), hb, h]
      · push_neg at hb
        have : w.applyOp (WalletOp.debit a r) =
            { w with
              balance := w.balance - a,
              transactions := w.transactions ++
                [{ userId := w.userId, reference := r, ttype := TxnType.debit,
                   amount := a, status := TxnStatus.successful }] } := by
          simp [Wallet.applyOp, Wallet.debit, not_le.mpr ha, not_lt.mpr hb]
        rw [this]
        show 0 ≤ w.balance - a
        linarith

theorem Wallet.runOps_balance_nonneg (ops : List WalletOp) (w : Wallet)
    (h : 0 ≤ w.balance) : 0 ≤ (w.runOps ops).balance := by
  induction ops generalizing w with
  | nil => exact h
  | cons op rest ih =>
    exact ih (w.applyOp op) (Wallet.applyOp_balance_nonneg w op h)

/-- C1: for every wallet, after any sequence of credit and debit
operations the balance stays nonnegative, and the persistence layer
rejects any save of a wallet whose balance is negative. -/
theorem wallet_balance_nonneg (w : Wallet) (h : 0 ≤ w.balance)
    (ops : List WalletOp) :
    0 ≤ (w.runOps ops).balance ∧
      ∀ v : Wallet, v.balance < 0 →
        v.preSave = .error "Wallet balance cannot be negative" := by
  refine ⟨Wallet.runOps_balance_nonneg ops w h, ?_⟩
  intro v hv
  simp [Wallet.preSave, hv]

def wExample : Wallet :=
  { userId := 1, balance := 5000, transactions := [], isActive := true }

/-- Witness for C1 at a concrete wallet and operation list. -/
theorem wallet_balance_nonneg_witness :
    0 ≤ (wExample.runOps
        [WalletOp.credit 3000 "R1", WalletOp.debit 10000 "R2",
         WalletOp.debit 2500 "R3"]).balance ∧
      ∀ v : Wallet, v.balance < 0 →
        v.preSave = .error "Wallet balance cannot be negative" :=
  wallet_balance_nonneg wExample (by norm_num [wExample])
    [WalletOp.credit 3000 "R1", WalletOp.debit 10000 "R2",
     WalletOp.debit 2500 "R3"]

/-- C2: with a positive amount, debit on insufficient funds returns false
and leaves the wallet (balance and transaction list) unchanged, creating
no transaction; with sufficient funds it appends a successful debit
transaction and decrements the balance by the amount. -/
theorem debit_semantics (w : Wallet) (a : Money) (r : String) (h : 0 < a) :
    (w.balance < a → w.debit a r = .ok (w, false)) ∧
      (a ≤ w.balance → w.debit a r =
        .ok ({ w with
          balance := w.balance - a,
          transactions := w.transactions ++
            [{ userId := w.userId, reference := r, ttype := TxnType.debit,
               amount := a, status := TxnStatus.successful }] }, true)) := by
  constructor
  · intro hlt
    simp [Wallet.debit, not_le.mpr h, hlt]
  · intro hle
    simp [Wallet.debit, not_le.mpr h, not_lt.mpr hle]

/-- Witness for C2: the spec scenario, balance 5000 and debit 10000 fails
without mutation. -/
theorem debit_semantics_witness :
    wExample.debit 10000 "R9" = .ok (wExample, false) :=
  (debit_semantics wExample 10000 "R9" (by norm_num)).1
    (by norm_num [wExample])

/-- C10: debit of a nonpositive amount throws an error rather than
returning false, and a false return happens exactly when the amount is
positive but exceeds the balance, with the wallet unchanged. -/
theorem debit_nonpositive (w : Wallet) (a : Money) (r : String) :
    (a ≤ 0 → w.debit a r = .error "Debit amount must be positive") ∧
      (∀ w', w.debit a r = .ok (w', false) →
        w' = w ∧ 0 < a ∧ w.balance < a) := by
  constructor
  · intro ha
    simp [Wallet.debit, ha]
  · intro w' hok
    by_cases ha : a ≤ 0
    · simp [Wallet.debit, ha] at hok
    · push_neg at ha
      by_cases hb : w.balance < a
      · simp only [Wallet.debit, if_neg (not_le.mpr ha), if_pos hb] at hok
        exact ⟨(Prod.mk.injEq _ _ _ _ ▸ (Except.ok.injEq _ _ ▸ hok)).1.symm ▸ rfl,
          ha, hb⟩
      · simp [Wallet.debit, not_le.mpr ha, hb] at hok

/-- Witness for C10: debit of a negative amount throws. -/
theorem debit_nonpositive_witness :
    wExample.debit (-5) "R0" = .error "Debit amount must be positive" :=
  (debit_nonpositive wExample (-5) "R0").1 (by norm_num)

/-! Claim workflow (src/src/models/Claim.ts, claim.controller.ts) -/

inductive ClaimStatus
  | pending
  | under_review
  | approved
  | declined
  | paid
deriving DecidableEq, Repr

structure InsClaim where
  userId : Nat
  amount : Money
  status : ClaimStatus
  reviewedBy : Option Nat
  reviewNotes : Option String
  approvedAmount : Option Money
deriving DecidableEq, Repr

/-- claimSchema.methods.canBeReviewed -/
def InsClaim.canBeReviewed (c : InsClaim) : Bool :=
  c.status == ClaimStatus.pending

/-- claimSchema.methods.isInReview -/
def InsClaim.isInReview (c : InsClaim) : Bool :=
  c.status == ClaimStatus.under_review

/-- claimSchema.methods.canBeApproved -/
def InsClaim.canBeApproved (c : InsClaim) : Bool :=
  c.status == ClaimStatus.pending || c.status == ClaimStatus.under_review

/-- claimSchema.methods.markAsUnderReview -/
def InsClaim.markAsUnderReview (c : InsClaim) (reviewerId : Nat) : InsClaim :=
  { c with status := ClaimStatus.under_review, reviewedBy := some reviewerId }

/-- JS a or-else b on an optional number: falls back when the value is
absent or 0 (both falsy). -/
def jsOrAmount (a : Option Money) (b : Money) : Money :=
  match a with
  | some x => if x = 0 then b else x
  | none => b

/-- JS truthiness check on an optional string: absent or empty is falsy. -/
def jsFalsyStr (s : Option String) : Bool :=
  match s with
  | some x => x == ""
  | none => true

/-- claimSchema.methods.approve: approvedAmount defaults to the claim
amount when unspecified (or 0, which is falsy in JS); notes are only set
when truthy. -/
def InsClaim.approve (c : InsClaim) (reviewerId : Nat)
    (approvedAmount : Option Money) (notes : Option String) : InsClaim :=
  { c with
    status := ClaimStatus.approved,
    reviewedBy := some reviewerId,
    approvedAmount := some (jsOrAmount approvedAmount c.amount),
    reviewNotes := if jsFalsyStr notes then c.reviewNotes else notes }

/-- claimSchema.methods.decline -/
def InsClaim.decline (c : InsClaim) (reviewerId : Nat) (notes : String) :
    InsClaim :=
  { c with
    status := ClaimStatus.declined,
    reviewedBy := some reviewerId,
    reviewNotes := some notes }

/-- updateClaimStatus controller (claim.controller.ts): dispatches on the
requested status string, guards each transition, rejects everything
else. -/
def updateClaimStatus (reviewerId : Nat) (status : String)
    (notes : Option String) (approvedAmount : Option Money) (c : InsClaim) :
    Except String InsClaim :=
  if status = "under_review" then
    if c.canBeReviewed then .ok (c.markAsUnderReview reviewerId)
    else .error "Claim cannot be marked as under review"
  else if status = "approved" then
    if c.canBeApproved then .ok (c.approve reviewerId approvedAmount notes)
    else .error "Claim cannot be approved"
  else if status = "declined" then
    if c.canBeApproved then
      match notes with
      | none => .error "Notes are required when declining a claim"
      | some n =>
        if n = "" then .error "Notes are required when declining a claim"
        else .ok (c.decline reviewerId n)
    else .error "Claim cannot be declined"
  else .error "Invalid status update"

/-- C7: a status update request changes the claim status only along the
edges pending to under_review, pending or under_review to approved, and
pending or under_review to declined; every other request is rejected with
an error (and, the embedding returning no document on error, the status
is unchanged). -/
theorem claim_status_transitions (reviewerId : Nat) (status : String)
    (notes : Option String) (approvedAmount : Option Money)
    (c c' : InsClaim)
    (h : updateClaimStatus reviewerId status notes approvedAmount c = .ok c') :
    (c.status = ClaimStatus.pending ∧ c'.status = ClaimStatus.under_review) ∨
      ((c.status = ClaimStatus.pending ∨ c.status = ClaimStatus.under_review) ∧
        c'.status = ClaimStatus.approved) ∨
      ((c.status = ClaimStatus.pending ∨ c.status = ClaimStatus.under_review) ∧
        c'.status = ClaimStatus.declined) := by
  unfold updateClaimStatus at h
  by_cases h1 : status = "under_review"
  · rw [if_pos h1] at h
    by_cases hc : c.canBeReviewed
    · rw [if_pos hc] at h
      left
      refine ⟨?_, ?_⟩
      · have := of_decide_eq_true (by simpa [InsClaim.canBeReviewed] using hc)
        exact this
      · cases h
        rfl
    · rw [if_neg hc] at h
      cases h
  · rw [if_neg h1] at h
    by_cases h2 : status = "approved"
    · rw [if_pos h2] at h
      by_cases hc : c.canBeApproved
      · rw [if_pos hc] at h
        right; left
        constructor
        · have hb : (c.status == ClaimStatus.pending ||
              c.status == ClaimStatus.under_review) = true := hc
          rcases Bool.or_eq_true_iff.mp hb with hp | hu
          · exact Or.inl (of_decide_eq_true hp)
          · exact Or.inr (of_decide_eq_true hu)
        · cases h
          rfl
      · rw [if_neg hc] at h
        cases h
    · rw [if_neg h2] at h
      by_cases h3 : status = "declined"
      · rw [if_pos h3] at h
        by_cases hc : c.canBeApproved
        · rw [if_pos hc] at h
          right; right
          constructor
          · have hb : (c.status == ClaimStatus.pending ||
                c.status == ClaimStatus.under_review) = true := hc
            rcases Bool.or_eq_true_iff.mp hb with hp | hu
            · exact Or.inl (of_decide_eq_true hp)
            · exact Or.inr (of_decide_eq_true hu)
          · cases notes with
            | none => cases h
            | some n =>
              dsimp only at h
              by_cases hn : n = ""
              · rw [if_pos hn] at h
                cases h
              · rw [if_neg hn] at h
                cases h
                rfl
        · rw [if_neg hc] at h
          cases h
      · rw [if_neg h3] at h
        cases h

def claimExample : InsClaim :=
  { userId := 2, amount := 75000, status := ClaimStatus.pending,
    reviewedBy := none, reviewNotes := none, approvedAmount := none }

/-- Witness for C7: an admin approval of a pending claim takes one of the
allowed edges (here pending to approved, with approvedAmount defaulting
to the claim amount of 75000). -/
theorem claim_status_transitions_witness :
    (claimExample.status = ClaimStatus.pending ∧
        (claimExample.approve 9 none none).status = ClaimStatus.under_review) ∨
      ((claimExample.status = ClaimStatus.pending ∨
          claimExample.status = ClaimStatus.under_review) ∧
        (claimExample.approve 9 none none).status = ClaimStatus.approved) ∨
      ((claimExample.status = ClaimStatus.pending ∨
          claimExample.status = ClaimStatus.under_review) ∧
        (claimExample.approve 9 none none).status = ClaimStatus.declined) :=
  claim_status_transitions 9 "approved" none none claimExample
    (claimExample.approve 9 none none) rfl

/-! Paystack webhook handlers (src/src/controllers/payment.controller.ts).
The document store is a list of transaction documents (looked up by
reference, mongoose findOne returning the first match) and a list of
wallet documents (looked up by userId); saving a document replaces the
first matching one. -/

/-- Replace the first element satisfying p by its image under f (the
mongoose in-place mutate-and-save of a findOne result). -/
def updateFirst (p : α → Bool) (f : α → α) : List α → List α
  | [] => []
  | x :: xs => if p x then f x :: xs else x :: updateFirst p f xs

theorem find?_updateFirst (p : α → Bool) (f : α → α) (l : List α) (x : α)
    (hf : ∀ a, p a = true → p (f a) = true) (h : l.find? p = some x) :
    (updateFirst p f l).find? p = some (f x) := by
  induction l with
  | nil => simp at h
  | cons a as ih =>
    by_cases hp : p a = true
    · rw [List.find?_cons_of_pos _ hp] at h
      cases h
      rw [updateFirst, if_pos hp]
      exact List.find?_cons_of_pos _ (hf _ hp)
    · rw [List.find?_cons_of_neg _ (by simpa using hp)] at h
      rw [updateFirst, if_neg hp]
      rw [List.find?_cons_of_neg _ (by simpa using hp)]
      exact ih h

theorem mem_updateFirst_of_find? (p : α → Bool) (f : α → α) (l : List α)
    (x : α) (h : l.find? p = some x) : f x ∈ updateFirst p f l := by
  induction l with
  | nil => simp at h
  | cons a as ih =>
    by_cases hp : p a = true
    · rw [List.find?_cons_of_pos _ hp] at h
      cases h
      rw [updateFirst, if_pos hp]
      exact List.mem_cons_self _ _
    · rw [List.find?_cons_of_neg _ (by simpa using hp)] at h
      rw [updateFirst, if_neg hp]
      exact List.mem_cons_of_mem _ (ih h)

/-- Payload of a charge/transfer webhook event (reference and amount in
kobo). -/
structure ChargeData where
  reference : String
  amount : Money
deriving DecidableEq, Repr

/-- The slice of the document store the webhook handlers touch. -/
structure PayDB where
  transactions : List Txn
  wallets : List Wallet
deriving DecidableEq, Repr

/-- handleChargeSuccess: looks the transaction up by reference; a missing
transaction, an already successful transaction, or a missing wallet is a
no-op; otherwise credits the wallet with amount/100 and marks the
transaction successful. -/
def handleChargeSuccess (data : ChargeData) (db : PayDB) : PayDB :=
  match db.transactions.find? (fun t => t.reference == data.reference) with
  | none => db
  | some t =>
    if t.status == TxnStatus.successful then db
    else
      match db.wallets.find? (fun w => w.userId == t.userId) with
      | none => db
      | some w =>
        match w.credit (data.amount / 100) "GENERATED" with
        | .error _ => db
        | .ok w' =>
          { transactions := updateFirst (fun u => u.reference == data.reference)
              (fun u => { u with status := TxnStatus.successful })
              db.transactions,
            wallets := updateFirst (fun v => v.userId == t.userId)
              (fun _ => w') db.wallets }

/-- handleChargeFailed: looks the transaction up by reference and, without
any check of the current status, sets it to failed. -/
def handleChargeFailed (data : ChargeData) (db : PayDB) : PayDB :=
  match db.transactions.find? (fun t => t.reference == data.reference) with
  | none => db
  | some _ =>
    { db with
      transactions := updateFirst (fun t => t.reference == data.reference)
        (fun t => { t with status := TxnStatus.failed }) db.transactions }

/-- handleTransferSuccess: looks the transaction up by reference and,
without any check of the current status, sets it to successful. -/
def handleTransferSuccess (data : ChargeData) (db : PayDB) : PayDB :=
  match db.transactions.find? (fun t => t.reference == data.reference) with
  | none => db
  | some _ =>
    { db with
      transactions := updateFirst (fun t => t.reference == data.reference)
        (fun t => { t with status := TxnStatus.successful }) db.transactions }

/-- C8: processing charge.success is idempotent: delivering the same event
twice leaves exactly the state of the first delivery, because the second
delivery finds the transaction already successful and does nothing. -/
theorem charge_success_idempotent (data : ChargeData) (db : PayDB) :
    handleChargeSuccess data (handleChargeSuccess data db) =
      handleChargeSuccess data db := by
  have fixed : ∀ d : PayDB, handleChargeSuccess data d = d →
      handleChargeSuccess data (handleChargeSuccess data d) =
        handleChargeSuccess data d := by
    intro d hd
    rw [hd]
    exact hd
  cases h1 : db.transactions.find? (fun t => t.reference == data.reference) with
  | none =>
    apply fixed
    simp [handleChargeSuccess, h1]
  | some t =>
    by_cases h2 : t.status == TxnStatus.successful
    · apply fixed
      simp [handleChargeSuccess, h1, h2]
    · cases h3 : db.wallets.find? (fun w => w.userId == t.userId) with
      | none =>
        apply fixed
        simp [handleChargeSuccess, h1, h2, h3]
      | some w =>
        cases h4 : w.credit (data.amount / 100) "GENERATED" with
        | error e =>
          apply fixed
          simp [handleChargeSuccess, h1, h2, h3, h4]
        | ok w' =>
          have hstep : handleChargeSuccess data db =
              { transactions := updateFirst
                  (fun u => u.reference == data.reference)
                  (fun u => { u with status := TxnStatus.successful })
                  db.transactions,
                wallets := updateFirst (fun v => v.userId == t.userId)
                  (fun _ => w') db.wallets } := by
            simp [handleChargeSuccess, h1, h2, h3, h4]
          have hfind : (updateFirst (fun u => u.reference == data.reference)
              (fun u => { u with status := TxnStatus.successful })
              db.transactions).find? (fun u => u.reference == data.reference) =
                some { t with status := TxnStatus.successful } :=
            find?_updateFirst _ _ _ _ (fun a ha => ha) h1
          rw [hstep]
          simp [handleChargeSuccess, hfind, hstep]

/-- A successful (terminal) wallet-funding transaction sitting in the
store. -/
def txnDone : Txn :=
  { userId := 7, reference := "REF1", ttype := TxnType.credit,
    amount := 5000, status := TxnStatus.successful }

def dbDone : PayDB := { transactions := [txnDone], wallets := [] }

/-- A failed (terminal) transaction sitting in the store. -/
def txnFailedRef2 : Txn :=
  { txnDone with reference := "REF2", status := TxnStatus.failed }

def dbFailed : PayDB := { transactions := [txnFailedRef2], wallets := [] }

/-- C9 (code bug evidence): the transaction model itself refuses to mark a
non-pending transaction as failed, yet the charge.failed webhook handler
sets the status of an already successful transaction to failed (and the
transfer.success handler would likewise overwrite a failed transaction),
so a terminal ledger entry is not immutable. -/
theorem terminal_transaction_mutable :
    txnDone.markAsFailed =
        .error "Cannot mark a non-pending transaction as failed" ∧
      ((handleChargeFailed { reference := "REF1", amount := 500000 }
          dbDone).transactions.find?
            (fun t => t.reference == "REF1")).map Txn.status =
        some TxnStatus.failed ∧
      ((handleTransferSuccess { reference := "REF2", amount := 500000 }
          dbFailed).transactions.find?
            (fun t => t.reference == "REF2")).map Txn.status =
        some TxnStatus.successful := by
  refine ⟨rfl, rfl, rfl⟩

/-! Group savings engine (src/src/models/GroupSavings.ts and the
makeContribution controller in
src/src/controllers/health-insurance-subscription.controller.ts).
The contribution transactionId field is not modelled (no verified
property depends on it). -/

inductive GroupStatus
  | draft
  | active
  | completed
  | cancelled
deriving DecidableEq, Repr

inductive ContribStatus
  | pending
  | paid
  | overdue
deriving DecidableEq, Repr

structure GroupMember where
  user : Nat
  position : Nat
  isActive : Bool
  contributionsMade : Nat
  lastContributionDate : Option Nat
  receivedPayout : Option Nat
deriving DecidableEq, Repr

structure Contribution where
  member : Nat
  amount : Money
  dueDate : Nat
  paidDate : Option Nat
  status : ContribStatus
  cycle : Nat
deriving DecidableEq, Repr

structure Group where
  members : List GroupMember
  contributions : List Contribution
  contributionAmount : Money
  currentCycle : Nat
  currentRecipient : Option Nat
  status : GroupStatus
  maxMembers : Nat
  totalContributed : Money
  totalPaidOut : Money
  nextContributionDate : Nat
  nextPayoutDate : Nat
deriving DecidableEq, Repr

/-- isReadyForPayout: the number of paid contributions tagged with the
current cycle equals the number of active members. -/
def Group.isReadyForPayout (g : Group) : Bool :=
  (g.contributions.filter
      (fun c => c.cycle == g.currentCycle && c.status == ContribStatus.paid)).length
    == (g.members.filter (fun m => m.isActive)).length

/-- Insertion step of the position sort used by calculateNextRecipient
(the JS numeric comparator sort, stable). -/
def insertByPosition (m : GroupMember) : List GroupMember → List GroupMember
  | [] => [m]
  | x :: xs =>
    if m.position ≤ x.position then m :: x :: xs else x :: insertByPosition m xs

def sortByPosition : List GroupMember → List GroupMember
  | [] => []
  | x :: xs => insertByPosition x (sortByPosition xs)

/-- calculateNextRecipient: among active members without a payout, sorted
by position, the first one; none if there is no such member. -/
def Group.calculateNextRecipient (g : Group) : Option Nat :=
  match sortByPosition
      (g.members.filter (fun m => m.isActive && m.receivedPayout.isNone)) with
  | [] => none
  | m :: _ => some m.user

/-- updateContributionSchedule: the source computes the next date from the
current clock (weekly: now plus 7 days; monthly: the same day of the next
calendar month); that civil-calendar computation is abstracted into the
nextDate argument, which both schedule fields receive. -/
def Group.updateContributionSchedule (g : Group) (nextDate : Nat) : Group :=
  { g with nextContributionDate := nextDate, nextPayoutDate := nextDate }

/-- recordContribution: the amount must equal the group contribution
amount and the member must exist and be active, else null; otherwise a
paid contribution for the current cycle is appended and the member stats
updated. -/
def Group.recordContribution (g : Group) (now : Nat) (memberId : Nat)
    (amount : Money) : Option (Group × Contribution) :=
  if amount ≠ g.contributionAmount then none
  else
    match g.members.find? (fun m => m.user == memberId) with
    | none => none
    | some m =>
      if !m.isActive then none
      else
        let contribution : Contribution :=
          { member := memberId, amount := amount,
            dueDate := g.nextContributionDate, paidDate := some now,
            status := ContribStatus.paid, cycle := g.currentCycle }
        some
          ({ g with
              contributions := g.contributions ++ [contribution],
              totalContributed := g.totalContributed + amount,
              members := updateFirst (fun x => x.user == memberId)
                (fun x => { x with
                  contributionsMade := x.contributionsMade + 1,
                  lastContributionDate := some now }) g.members },
            contribution)

/-- processPayout: when ready and a recipient exists, pays
contributionAmount times the active member count, stamps the recipient
receivedPayout, advances the cycle, recomputes the schedule, and marks
the group completed when every member (active or not) has a payout
stamp. -/
def Group.processPayout (g : Group) (now : Nat) (nextDate : Nat) :
    Group × Bool :=
  if !g.isReadyForPayout then (g, false)
  else
    match g.calculateNextRecipient with
    | none => (g, false)
    | some recipient =>
      let payoutAmount := g.contributionAmount *
        ((g.members.filter (fun m => m.isActive)).length : Money)
      let members' := updateFirst (fun m => m.user == recipient)
        (fun m => { m with receivedPayout := some now }) g.members
      let g' := (({ g with
          members := members',
          currentRecipient := some recipient,
          totalPaidOut := g.totalPaidOut + payoutAmount,
          currentCycle := g.currentCycle + 1 } : Group).updateContributionSchedule
        nextDate)
      let allMembersReceived := members'.all (fun m => m.receivedPayout.isSome)
      (if allMembersReceived then { g' with status := GroupStatus.completed }
       else g', true)

/-- The outcomes of the makeContribution controller. -/
inductive ContributionError
  | notActiveMember
  | groupNotActive
  | alreadyContributed
  | walletNotFound
  | insufficientBalance
  | recordFailed
  | internalError
deriving DecidableEq, Repr

/-- The state the makeContribution controller touches: the group document
and the wallet collection. -/
structure GroupState where
  group : Group
  wallets : List Wallet
deriving DecidableEq, Repr

def findWallet (wallets : List Wallet) (userId : Nat) : Option Wallet :=
  wallets.find? (fun w => w.userId == userId)

def setWallet (wallets : List Wallet) (userId : Nat) (w : Wallet) :
    List Wallet :=
  updateFirst (fun v => v.userId == userId) (fun _ => w) wallets

/-- makeContribution controller: active-member check, group-active check,
one-paid-contribution-per-cycle check, wallet balance check, debit,
contribution record, then payout processing and recipient credit when the
cycle is complete. Error responses return before the corresponding state
change is persisted (the duplicate rejection in particular happens before
any mutation). -/
def makeContribution (now nextDate : Nat) (userId : Nat) (s : GroupState) :
    Except ContributionError GroupState :=
  match s.group.members.find? (fun m => m.user == userId) with
  | none => .error ContributionError.notActiveMember
  | some member =>
    if !member.isActive then .error ContributionError.notActiveMember
    else if s.group.status != GroupStatus.active then
      .error ContributionError.groupNotActive
    else if (s.group.contributions.find? (fun c =>
        c.member == userId && c.cycle == s.group.currentCycle &&
          c.status == ContribStatus.paid)).isSome then
      .error ContributionError.alreadyContributed
    else
      match findWallet s.wallets userId with
      | none => .error ContributionError.walletNotFound
      | some wallet =>
        if !wallet.canDebit s.group.contributionAmount then
          .error ContributionError.insufficientBalance
        else
          match wallet.debit s.group.contributionAmount "GENERATED" with
          | .error _ => .error ContributionError.internalError
          | .ok (wallet', _) =>
            match s.group.recordContribution now userId s.group.contributionAmount with
            | none => .error ContributionError.recordFailed
            | some (g', _contribution) =>
              let wallets' := setWallet s.wallets userId wallet'
              if g'.isReadyForPayout then
                let g'' := (g'.processPayout now nextDate).1
                match g''.currentRecipient with
                | none => .ok { group := g'', wallets := wallets' }
                | some recipient =>
                  match findWallet wallets' recipient with
                  | none => .ok { group := g'', wallets := wallets' }
                  | some rw =>
                    let payoutAmount := g''.contributionAmount *
                      ((g''.members.filter (fun m => m.isActive)).length : Money)
                    match rw.credit payoutAmount "GENERATED" with
                    | .error _ => .error ContributionError.internalError
                    | .ok rw' =>
                      .ok { group := g'',
                            wallets := setWallet wallets' recipient rw' }
              else .ok { group := g', wallets := wallets' }

theorem insertByPosition_ne_nil (m : GroupMember) (l : List GroupMember) :
    insertByPosition m l ≠ [] := by
  cases l with
  | nil => simp [insertByPosition]
  | cons x xs =>
    rw [insertByPosition]
    by_cases h : m.position ≤ x.position
    · simp [h]
    · simp [h]

theorem mem_insertByPosition {y m : GroupMember} {l : List GroupMember} :
    y ∈ insertByPosition m l ↔ y = m ∨ y ∈ l := by
  induction l with
  | nil => simp [insertByPosition]
  | cons x xs ih =>
    rw [insertByPosition]
    by_cases h : m.position ≤ x.position
    · simp [h, List.mem_cons]
    · simp only [h, if_false, List.mem_cons, ih]
      tauto

theorem mem_sortByPosition {y : GroupMember} {l : List GroupMember} :
    y ∈ sortByPosition l ↔ y ∈ l := by
  induction l with
  | nil => simp [sortByPosition]
  | cons x xs ih =>
    rw [sortByPosition]
    rw [mem_insertByPosition]
    simp [ih, List.mem_cons]

theorem sortByPosition_eq_nil {l : List GroupMember}
    (h : sortByPosition l = []) : l = [] := by
  cases l with
  | nil => rfl
  | cons x xs =>
    rw [sortByPosition] at h
    exact absurd h (insertByPosition_ne_nil x (sortByPosition xs))

theorem sortByPosition_head_min (l : List GroupMember) (m : GroupMember)
    (rest : List GroupMember) (h : sortByPosition l = m :: rest) :
    m ∈ l ∧ ∀ x ∈ l, m.position ≤ x.position := by
  induction l generalizing m rest with
  | nil => simp [sortByPosition] at h
  | cons x xs ih =>
    rw [sortByPosition] at h
    cases hs : sortByPosition xs with
    | nil =>
      rw [hs] at h
      rw [show insertByPosition x [] = [x] from rfl] at h
      cases h
      have hxs : xs = [] := sortByPosition_eq_nil hs
      subst hxs
      exact ⟨List.mem_cons_self _ _, by
        intro y hy
        rcases List.mem_cons.mp hy with rfl | hy
        · exact Nat.le_refl _
        · simp at hy⟩
    | cons hd tl =>
      rw [hs] at h
      have ihd := ih hd tl hs
      rw [insertByPosition] at h
      by_cases hcmp : x.position ≤ hd.position
      · rw [if_pos hcmp] at h
        cases h
        refine ⟨List.mem_cons_self _ _, ?_⟩
        intro y hy
        rcases List.mem_cons.mp hy with rfl | hy
        · exact Nat.le_refl _
        · exact Nat.le_trans hcmp (ihd.2 y hy)
      · rw [if_neg hcmp] at h
        cases h
        refine ⟨List.mem_cons_of_mem _ ihd.1, ?_⟩
        intro y hy
        rcases List.mem_cons.mp hy with rfl | hy
        · exact Nat.le_of_lt (Nat.lt_of_not_le hcmp)
        · exact ihd.2 y hy

/-- C3: a cycle is ready for payout exactly when the number of paid
contributions tagged with the current cycle equals the number of active
members, and the recipient selected is an active member without a prior
payout whose position is lowest among all such members (none exactly when
no active member is still owed a payout). -/
theorem payout_readiness_recipient (g : Group) :
    (g.isReadyForPayout = true ↔
      g.contributions.countP
          (fun c => c.cycle == g.currentCycle && c.status == ContribStatus.paid)
        = g.members.countP (fun m => m.isActive)) ∧
      (g.calculateNextRecipient = none ↔
        ∀ m ∈ g.members, m.isActive = true → m.receivedPayout ≠ none) ∧
      (∀ r, g.calculateNextRecipient = some r →
        ∃ m ∈ g.members, m.user = r ∧ m.isActive = true ∧
          m.receivedPayout = none ∧
          ∀ m' ∈ g.members, m'.isActive = true → m'.receivedPayout = none →
            m.position ≤ m'.position) := by
  refine ⟨?_, ?_, ?_⟩
  · rw [Group.isReadyForPayout]
    rw [beq_iff_eq]
    rw [List.countP_eq_length_filter, List.countP_eq_length_filter]
  · rw [Group.calculateNextRecipient]
    cases hs : sortByPosition
        (g.members.filter (fun m => m.isActive && m.receivedPayout.isNone)) with
    | nil =>
      simp only [true_iff]
      have hnilf := sortByPosition_eq_nil hs
      intro m hm hact hnone
      have hp : (fun m => m.isActive && m.receivedPayout.isNone) m = true := by
        simp [hact, hnone]
      have : m ∈ g.members.filter
          (fun m => m.isActive && m.receivedPayout.isNone) :=
        List.mem_filter.mpr ⟨hm, hp⟩
      rw [hnilf] at this
      simp at this
    | cons hd tl =>
      simp only [false_iff]
      constructor
      · intro h
        cases h
      · intro hall
        exfalso
        have hmem : hd ∈ g.members.filter
            (fun m => m.isActive && m.receivedPayout.isNone) := by
          have : hd ∈ sortByPosition (g.members.filter
              (fun m => m.isActive && m.receivedPayout.isNone)) := by
            rw [hs]
            exact List.mem_cons_self _ _
          exact mem_sortByPosition.mp this
        have := List.mem_filter.mp hmem
        have hact : hd.isActive = true := (Bool.and_eq_true _ _ ▸ this.2).1
        have hnone : hd.receivedPayout = none :=
          Option.isNone_iff_eq_none.mp (Bool.and_eq_true _ _ ▸ this.2).2
        exact hall hd this.1 hact hnone
  · intro r hr
    rw [Group.calculateNextRecipient] at hr
    cases hs : sortByPosition
        (g.members.filter (fun m => m.isActive && m.receivedPayout.isNone)) with
    | nil =>
      rw [hs] at hr
      cases hr
    | cons hd tl =>
      rw [hs] at hr
      cases hr
      have hmin := sortByPosition_head_min _ hd tl hs
      have hmemf := hmin.1
      have := List.mem_filter.mp hmemf
      have hact : hd.isActive = true := (Bool.and_eq_true _ _ ▸ this.2).1
      have hnone : hd.receivedPayout = none :=
        Option.isNone_iff_eq_none.mp (Bool.and_eq_true _ _ ▸ this.2).2
      refine ⟨hd, this.1, rfl, hact, hnone, ?_⟩
      intro m' hm' hact' hnone'
      have hp' : (fun m => m.isActive && m.receivedPayout.isNone) m' = true := by
        simp [hact', hnone']
      exact hmin.2 m' (List.mem_filter.mpr ⟨hm', hp'⟩)

def groupExample : Group :=
  { members :=
      [{ user := 1, position := 1, isActive := true, contributionsMade := 1,
         lastContributionDate := some 10, receivedPayout := none },
       { user := 2, position := 2, isActive := true, contributionsMade := 1,
         lastContributionDate := some 11, receivedPayout := none },
       { user := 3, position := 3, isActive := true, contributionsMade := 1,
         lastContributionDate := some 12, receivedPayout := none }],
    contributions :=
      [{ member := 1, amount := 10000, dueDate := 9, paidDate := some 10,
         status := ContribStatus.paid, cycle := 1 },
       { member := 2, amount := 10000, dueDate := 9, paidDate := some 11,
         status := ContribStatus.paid, cycle := 1 },
       { member := 3, amount := 10000, dueDate := 9, paidDate := some 12,
         status := ContribStatus.paid, cycle := 1 }],
    contributionAmount := 10000,
    currentCycle := 1,
    currentRecipient := none,
    status := GroupStatus.active,
    maxMembers := 3,
    totalContributed := 30000,
    totalPaidOut := 0,
    nextContributionDate := 20,
    nextPayoutDate := 20 }

/-- Witness for C3: in the three-member example group the selected
recipient is the lowest-position active member who has not received a
payout. -/
theorem payout_readiness_recipient_witness :
    ∃ m ∈ groupExample.members, m.user = 1 ∧ m.isActive = true ∧
      m.receivedPayout = none ∧
      ∀ m' ∈ groupExample.members, m'.isActive = true →
        m'.receivedPayout = none → m.position ≤ m'.position :=
  (payout_readiness_recipient groupExample).2.2 1 rfl

theorem find?_user_of_recipient (g : Group) (r : Nat)
    (hrec : g.calculateNextRecipient = some r) :
    ∃ x, g.members.find? (fun m => m.user == r) = some x := by
  rw [Group.calculateNextRecipient] at hrec
  cases hs : sortByPosition
      (g.members.filter (fun m => m.isActive && m.receivedPayout.isNone)) with
  | nil =>
    rw [hs] at hrec
    cases hrec
  | cons hd tl =>
    rw [hs] at hrec
    cases hrec
    have hhd : hd ∈ g.members := by
      have : hd ∈ sortByPosition (g.members.filter
          (fun m => m.isActive && m.receivedPayout.isNone)) := by
        rw [hs]
        exact List.mem_cons_self _ _
      exact (List.mem_filter.mp (mem_sortByPosition.mp this)).1
    cases hfind : g.members.find? (fun m => m.user == hd.user) with
    | none =>
      exfalso
      have := List.find?_eq_none.mp hfind hd hhd
      simp at this
    | some x => exact ⟨x, rfl⟩

/-- C4: on a group that is ready for payout with an eligible recipient,
processPayout succeeds, pays contributionAmount times the active member
count, stamps the recipient receivedPayout, and increments the current
cycle by one. -/
theorem process_payout_correct (g : Group) (now nextDate : Nat) (r : Nat)
    (hready : g.isReadyForPayout = true)
    (hrec : g.calculateNextRecipient = some r) :
    (g.processPayout now nextDate).2 = true ∧
      (g.processPayout now nextDate).1.totalPaidOut =
        g.totalPaidOut + g.contributionAmount *
          ((g.members.filter (fun m => m.isActive)).length : Money) ∧
      (g.processPayout now nextDate).1.currentCycle = g.currentCycle + 1 ∧
      (g.processPayout now nextDate).1.currentRecipient = some r ∧
      ∃ m ∈ (g.processPayout now nextDate).1.members,
        m.user = r ∧ m.receivedPayout = some now := by
  obtain ⟨x, hx⟩ := find?_user_of_recipient g r hrec
  have hpx := List.find?_some hx
  have hxr : x.user = r := by simpa using hpx
  have hmem' : ({ x with receivedPayout := some now } : GroupMember) ∈
      updateFirst (fun m => m.user == r)
        (fun m => { m with receivedPayout := some now }) g.members :=
    mem_updateFirst_of_find? _ _ _ _ hx
  simp only [Group.processPayout, hready, hrec, Bool.not_true,
    Bool.false_eq_true, if_false, Group.updateContributionSchedule]
  split
  · exact ⟨trivial, rfl, rfl, rfl,
      ⟨{ x with receivedPayout := some now }, hmem', by simp [hxr], rfl⟩⟩
  · exact ⟨trivial, rfl, rfl, rfl,
      ⟨{ x with receivedPayout := some now }, hmem', by simp [hxr], rfl⟩⟩

/-- Witness for C4: the spec scenario, three active members each having
contributed 10000 in cycle 1; the payout is 30000, the recipient is the
position-1 member, and the cycle becomes 2. -/
theorem process_payout_correct_witness :
    (groupExample.processPayout 15 30).2 = true ∧
      (groupExample.processPayout 15 30).1.totalPaidOut =
        groupExample.totalPaidOut + groupExample.contributionAmount *
          ((groupExample.members.filter (fun m => m.isActive)).length : Money) ∧
      (groupExample.processPayout 15 30).1.currentCycle =
        groupExample.currentCycle + 1 ∧
      (groupExample.processPayout 15 30).1.currentRecipient = some 1 ∧
      ∃ m ∈ (groupExample.processPayout 15 30).1.members,
        m.user = 1 ∧ m.receivedPayout = some 15 :=
  process_payout_correct groupExample 15 30 1 (by decide) rfl

/-- A group with one active member (owed a payout) and one inactive member
who never received one: the completion check in processPayout ranges over
all members, so this group can never complete. -/
def groupWithInactive : Group :=
  { members :=
      [{ user := 1, position := 1, isActive := true, contributionsMade := 1,
         lastContributionDate := some 10, receivedPayout := none },
       { user := 2, position := 2, isActive := false, contributionsMade := 0,
         lastContributionDate := none, receivedPayout := none }],
    contributions :=
      [{ member := 1, amount := 1000, dueDate := 9, paidDate := some 10,
         status := ContribStatus.paid, cycle := 1 }],
    contributionAmount := 1000,
    currentCycle := 1,
    currentRecipient := none,
    status := GroupStatus.active,
    maxMembers := 2,
    totalContributed := 1000,
    totalPaidOut := 0,
    nextContributionDate := 20,
    nextPayoutDate := 20 }

/-- C5 counterexample: after a successful payout every active member of
groupWithInactive has received a payout, yet the group status is not
completed, because the completion check in processPayout quantifies over
all members including inactive ones. -/
theorem group_completed_counterexample :
    (groupWithInactive.processPayout 50 60).2 = true ∧
      ((groupWithInactive.processPayout 50 60).1.members.filter
          (fun m => m.isActive)).all
        (fun m => m.receivedPayout.isSome) = true ∧
      (groupWithInactive.processPayout 50 60).1.status ≠
        GroupStatus.completed := by
  refine ⟨rfl, rfl, ?_⟩
  decide

/-- C5 amended: when processPayout succeeds, the group status becomes
completed exactly on the run in which every member of the group, active
or inactive, carries a receivedPayout stamp. -/
theorem group_completed_amended (g : Group) (now nextDate : Nat) (g' : Group)
    (h : g.processPayout now nextDate = (g', true))
    (hall : g'.members.all (fun m => m.receivedPayout.isSome) = true) :
    g'.status = GroupStatus.completed := by
  by_cases hready : g.isReadyForPayout = true
  · simp only [Group.processPayout, hready, Bool.not_true, Bool.false_eq_true,
      if_false, Group.updateContributionSchedule] at h
    cases hrec : g.calculateNextRecipient with
    | none =>
      rw [hrec] at h
      simp at h
    | some r =>
      rw [hrec] at h
      dsimp only at h
      split at h
      · injection h with h1 _
        rw [← h1]
      · next hcond =>
        injection h with h1 _
        exfalso
        apply hcond
        rw [← h1] at hall
        exact hall
  · have hready' : g.isReadyForPayout = false := by
      simpa using hready
    simp only [Group.processPayout, hready', Bool.not_false, if_true] at h
    simp at h

/-- A single-member group about to receive the last payout. -/
def groupSolo : Group :=
  { members :=
      [{ user := 1, position := 1, isActive := true, contributionsMade := 1,
         lastContributionDate := some 10, receivedPayout := none }],
    contributions :=
      [{ member := 1, amount := 1000, dueDate := 9, paidDate := some 10,
         status := ContribStatus.paid, cycle := 1 }],
    contributionAmount := 1000,
    currentCycle := 1,
    currentRecipient := none,
    status := GroupStatus.active,
    maxMembers := 2,
    totalContributed := 1000,
    totalPaidOut := 0,
    nextContributionDate := 20,
    nextPayoutDate := 20 }

/-- Witness for the C5 amended claim: once the last member of groupSolo is
paid out, the status becomes completed. -/
theorem group_completed_amended_witness :
    (groupSolo.processPayout 70 80).1.status = GroupStatus.completed :=
  group_completed_amended groupSolo 70 80 (groupSolo.processPayout 70 80).1
    rfl (by decide)

/-- Number of paid contributions a member has recorded for a cycle. -/
def paidCount (g : Group) (u cyc : Nat) : Nat :=
  g.contributions.countP
    (fun c => c.member == u && c.cycle == cyc && c.status == ContribStatus.paid)

theorem recordContribution_spec (g : Group) (now mId : Nat) (amt : Money)
    (g' : Group) (c : Contribution)
    (h : g.recordContribution now mId amt = some (g', c)) :
    g'.contributions = g.contributions ++ [c] ∧ c.member = mId ∧
      c.cycle = g.currentCycle ∧ c.status = ContribStatus.paid := by
  rw [Group.recordContribution] at h
  by_cases hamt : amt ≠ g.contributionAmount
  · rw [if_pos hamt] at h
    cases h
  · rw [if_neg hamt] at h
    cases hf : g.members.find? (fun m => m.user == mId) with
    | none =>
      rw [hf] at h
      cases h
    | some m =>
      rw [hf] at h
      dsimp only at h
      by_cases hact : (!m.isActive) = true
      · rw [if_pos hact] at h
        cases h
      · rw [if_neg hact] at h
        injection h with h2
        injection h2 with hg hc
        subst hg
        subst hc
        exact ⟨rfl, rfl, rfl, rfl⟩

theorem processPayout_contributions (g : Group) (now nextDate : Nat) :
    ((g.processPayout now nextDate).1).contributions = g.contributions := by
  rw [Group.processPayout]
  split
  · rfl
  · split
    · rfl
    · dsimp only
      split
      · rfl
      · rfl

theorem makeContribution_ok_spec (now nextDate u : Nat) (s s' : GroupState)
    (h : makeContribution now nextDate u s = .ok s') :
    s.group.contributions.find? (fun c =>
        c.member == u && c.cycle == s.group.currentCycle &&
          c.status == ContribStatus.paid) = none ∧
      ∃ c : Contribution, c.member = u ∧ c.cycle = s.group.currentCycle ∧
        c.status = ContribStatus.paid ∧
        s'.group.contributions = s.group.contributions ++ [c] := by
  rw [makeContribution] at h
  cases hfm : s.group.members.find? (fun m => m.user == u) with
  | none =>
    rw [hfm] at h
    cases h
  | some member =>
    rw [hfm] at h
    dsimp only at h
    by_cases hact : (!member.isActive) = true
    · rw [if_pos hact] at h
      cases h
    · rw [if_neg hact] at h
      by_cases hst : (s.group.status != GroupStatus.active) = true
      · rw [if_pos hst] at h
        cases h
      · rw [if_neg hst] at h
        by_cases hdup : (s.group.contributions.find? (fun c =>
            c.member == u && c.cycle == s.group.currentCycle &&
              c.status == ContribStatus.paid)).isSome = true
        · rw [if_pos hdup] at h
          cases h
        · rw [if_neg hdup] at h
          have hdupnone : s.group.contributions.find? (fun c =>
              c.member == u && c.cycle == s.group.currentCycle &&
                c.status == ContribStatus.paid) = none :=
            Option.not_isSome_iff_eq_none.mp (by simpa using hdup)
          refine ⟨hdupnone, ?_⟩
          cases hw : findWallet s.wallets u with
          | none =>
            rw [hw] at h
            cases h
          | some wallet =>
            rw [hw] at h
            dsimp only at h
            by_cases hcd : (!wallet.canDebit s.group.contributionAmount) = true
            · rw [if_pos hcd] at h
              cases h
            · rw [if_neg hcd] at h
              cases hdeb : wallet.debit s.group.contributionAmount "GENERATED" with
              | error e =>
                rw [hdeb] at h
                cases h
              | ok pr =>
                rw [hdeb] at h
                obtain ⟨wallet', flag⟩ := pr
                dsimp only at h
                cases hrc : s.group.recordContribution now u
                    s.group.contributionAmount with
                | none =>
                  rw [hrc] at h
                  cases h
                | some pr2 =>
                  obtain ⟨g', c⟩ := pr2
                  rw [hrc] at h
                  dsimp only at h
                  obtain ⟨hceq, hcm, hcc, hcs⟩ :=
                    recordContribution_spec _ _ _ _ _ _ hrc
                  refine ⟨c, hcm, hcc, hcs, ?_⟩
                  by_cases hready : g'.isReadyForPayout = true
                  · rw [if_pos hready] at h
                    cases hcr : ((g'.processPayout now nextDate).1).currentRecipient with
                    | none =>
                      rw [hcr] at h
                      cases h
                      show ((g'.processPayout now nextDate).1).contributions =
                        s.group.contributions ++ [c]
                      rw [processPayout_contributions, hceq]
                    | some recipient =>
                      rw [hcr] at h
                      dsimp only at h
                      cases hrw : findWallet
                          (setWallet s.wallets u wallet') recipient with
                      | none =>
                        rw [hrw] at h
                        cases h
                        show ((g'.processPayout now nextDate).1).contributions =
                          s.group.contributions ++ [c]
                        rw [processPayout_contributions, hceq]
                      | some rw2 =>
                        rw [hrw] at h
                        dsimp only at h
                        cases hcredit : rw2.credit
                            (((g'.processPayout now nextDate).1).contributionAmount *
                              ((((g'.processPayout now nextDate).1).members.filter
                                (fun m => m.isActive)).length : Money)) "GENERATED" with
                        | error e =>
                          rw [hcredit] at h
                          cases h
                        | ok rw3 =>
                          rw [hcredit] at h
                          cases h
                          show ((g'.processPayout now nextDate).1).contributions =
                            s.group.contributions ++ [c]
                          rw [processPayout_contributions, hceq]
                  · rw [if_neg hready] at h
                    cases h
                    exact hceq

/-- C6: a second contribution attempt by a member who already has a paid
contribution for the current cycle is rejected (the controller returns an
error, recording nothing), and a successful contribution preserves the
invariant that every member has at most one paid contribution per
cycle. -/
theorem contribution_once (now nextDate u : Nat) (s : GroupState) :
    (0 < paidCount s.group u s.group.currentCycle →
        ∃ e, makeContribution now nextDate u s = .error e) ∧
      ∀ s', makeContribution now nextDate u s = .ok s' →
        (∀ v cyc, paidCount s.group v cyc ≤ 1) →
        ∀ v cyc, paidCount s'.group v cyc ≤ 1 := by
  constructor
  · intro hdup
    cases hres : makeContribution now nextDate u s with
    | error e => exact ⟨e, rfl⟩
    | ok s' =>
      exfalso
      obtain ⟨hnone, _⟩ := makeContribution_ok_spec now nextDate u s s' hres
      have hzero : paidCount s.group u s.group.currentCycle = 0 := by
        rw [paidCount, List.countP_eq_zero]
        intro a ha
        exact List.find?_eq_none.mp hnone a ha
      omega
  · intro s' hok hinv v cyc
    obtain ⟨hnone, c, hcm, hcc, hcs, heq⟩ :=
      makeContribution_ok_spec now nextDate u s s' hok
    rw [paidCount, heq, List.countP_append]
    by_cases hp : (c.member == v && c.cycle == cyc &&
        c.status == ContribStatus.paid) = true
    · have hv : v = u := by
        have h1 : c.member = v := by
          have := (Bool.and_eq_true _ _ ▸ hp).1
          have := (Bool.and_eq_true _ _ ▸ this).1
          simpa using this
        rw [← h1, hcm]
      have hcyc : cyc = s.group.currentCycle := by
        have h1 : c.cycle = cyc := by
          have := (Bool.and_eq_true _ _ ▸ hp).1
          have := (Bool.and_eq_true _ _ ▸ this).2
          simpa using this
        rw [← h1, hcc]
      have hzero : s.group.contributions.countP
          (fun c => c.member == v && c.cycle == cyc &&
            c.status == ContribStatus.paid) = 0 := by
        rw [List.countP_eq_zero]
        intro a ha
        have halt := List.find?_eq_none.mp hnone a ha
        rw [hv, hcyc]
        exact halt
      rw [hzero]
      simp [List.countP_cons, hp]
    · have hone : List.countP (fun c => c.member == v && c.cycle == cyc &&
          c.status == ContribStatus.paid) [c] = 0 := by
        simp only [List.countP_cons, List.countP_nil]
        simp [hp]
      rw [hone]
      have := hinv v cyc
      rw [paidCount] at this
      omega

/-- A state in which member 1 has already contributed for the current
cycle. -/
def sDup : GroupState :=
  { group :=
      { members :=
          [{ user := 1, position := 1, isActive := true,
             contributionsMade := 1, lastContributionDate := some 10,
             receivedPayout := none },
           { user := 2, position := 2, isActive := true,
             contributionsMade := 0, lastContributionDate := none,
             receivedPayout := none }],
        contributions :=
          [{ member := 1, amount := 1000, dueDate := 9, paidDate := some 10,
             status := ContribStatus.paid, cycle := 1 }],
        contributionAmount := 1000,
        currentCycle := 1,
        currentRecipient := none,
        status := GroupStatus.active,
        maxMembers := 2,
        totalContributed := 1000,
        totalPaidOut := 0,
        nextContributionDate := 20,
        nextPayoutDate := 20 },
    wallets :=
      [{ userId := 1, balance := 9000, transactions := [],
         isActive := true }] }

/-- Witness for C6: the duplicate attempt by member 1 in sDup is
rejected. -/
theorem contribution_once_witness :
    ∃ e, makeContribution 11 21 1 sDup = .error e :=
  (contribution_once 11 21 1 sDup).1 (by decide)

end InsureWise
